import Mathlib

/-
  Shallow embedding of the xfuzz harness core (src/src/coverage.rs,
  src/src/harness.rs, src/src/monitor.rs, src/src/lib.rs).

  Bytes are modelled as Nat values below 256 where it matters; exit
  statuses are Int (the Rust i32 return codes are only compared to 0).
  The foreign simulator entry point sim_main is an oracle parameter
  mapping the effective workload bytes to an exit status.
-/

namespace XFuzz

/- ===== Coverage (src/src/coverage.rs) ===== -/

structure Coverage where
  cover_points : List Nat
  accumulated : List Nat
deriving DecidableEq

def Coverage.new (n : Nat) : Coverage :=
  ⟨List.replicate n 0, List.replicate n 0⟩

-- In the source, len() returns cover_points.capacity(); for a vector
-- built by the vec macro with n zeros the capacity is exactly n.
def Coverage.len (c : Coverage) : Nat := c.cover_points.length

-- One position of accumulate(): if the raw counter is nonzero the
-- accumulated slot is set to 1, otherwise it keeps its value.
def accumUpdate (cp acc : Nat) : Nat := if cp ≠ 0 then 1 else acc

-- accumulate() walks cover_points and writes accumulated[i] = 1 where
-- cover_points[i] is nonzero; positions of accumulated beyond
-- cover_points (none, under the equal-length invariant) are untouched.
def accumApply (cp acc : List Nat) : List Nat :=
  List.zipWith accumUpdate cp acc ++ acc.drop cp.length

def Coverage.accumulate (c : Coverage) : Coverage :=
  { c with accumulated := accumApply c.cover_points c.accumulated }

def Coverage.get_accumulative_coverage (c : Coverage) : Rat :=
  (100 * (c.accumulated.countP (fun b => b != 0)) : Rat) / (c.len : Rat)

/-
  The operations that can touch a Coverage value during the life of the
  process: the foreign simulator writing fresh raw counters through the
  lent pointer (update_stats), and accumulate().  The read-only
  operations (len, get_accumulative_coverage, display) do not change
  the state.
-/
inductive CovStep : Coverage → Coverage → Prop where
  | sim_write (c : Coverage) (new_cp : List Nat)
      (h : new_cp.length = c.cover_points.length) :
      CovStep c ⟨new_cp, c.accumulated⟩
  | accumulate (c : Coverage) : CovStep c c.accumulate

def CovReach : Coverage → Coverage → Prop :=
  Relation.ReflTransGen CovStep

/- ===== sim_run_multiple (src/src/harness.rs) ===== -/

structure RunResult (α : Type) where
  ret : Int
  executed : List α
  logged : List (α × Int)
deriving DecidableEq

/-
  Faithful rendering of the loop in sim_run_multiple: ret starts at 0,
  each iteration runs the workload and overwrites ret; a nonzero status
  is logged; with auto_exit the loop breaks at the first nonzero status.
  executed records the workloads actually run, in order; logged records
  the failure log lines, in order.
-/
def sim_run_multiple_go {α : Type} (run : α → Int) (autoExit : Bool) :
    List α → Int → RunResult α
  | [], ret => ⟨ret, [], []⟩
  | w :: ws, _ =>
      let r := run w
      if r ≠ 0 then
        if autoExit then ⟨r, [w], [(w, r)]⟩
        else
          let rest := sim_run_multiple_go run autoExit ws r
          ⟨rest.ret, w :: rest.executed, (w, r) :: rest.logged⟩
      else
        let rest := sim_run_multiple_go run autoExit ws r
        ⟨rest.ret, w :: rest.executed, rest.logged⟩

def sim_run_multiple {α : Type} (run : α → Int) (workloads : List α)
    (autoExit : Bool) : RunResult α :=
  sim_run_multiple_go run autoExit workloads 0

-- The value the loop accumulator ret has after the whole list: the
-- status of the last run, or the initial value for an empty list.
def lastStatusD {α : Type} (run : α → Int) : List α → Int → Int
  | [], d => d
  | w :: ws, _ => lastStatusD run ws (run w)

/- ===== MD5 (the md5 crate used by src/src/monitor.rs, RFC 1321) ===== -/

def M32 : Nat := 4294967296

def mnot (x : Nat) : Nat := x ^^^ 4294967295

def rotl32 (x s : Nat) : Nat :=
  ((x <<< s) % M32) ||| (x >>> (32 - s))

def md5K : List Nat :=
  [0xd76aa478, 0xe8c7b756, 0x242070db, 0xc1bdceee,
   0xf57c0faf, 0x4787c62a, 0xa8304613, 0xfd469501,
   0x698098d8, 0x8b44f7af, 0xffff5bb1, 0x895cd7be,
   0x6b901122, 0xfd987193, 0xa679438e, 0x49b40821,
   0xf61e2562, 0xc040b340, 0x265e5a51, 0xe9b6c7aa,
   0xd62f105d, 0x02441453, 0xd8a1e681, 0xe7d3fbc8,
   0x21e1cde6, 0xc33707d6, 0xf4d50d87, 0x455a14ed,
   0xa9e3e905, 0xfcefa3f8, 0x676f02d9, 0x8d2a4c8a,
   0xfffa3942, 0x8771f681, 0x6d9d6122, 0xfde5380c,
   0xa4beea44, 0x4bdecfa9, 0xf6bb4b60, 0xbebfbc70,
   0x289b7ec6, 0xeaa127fa, 0xd4ef3085, 0x04881d05,
   0xd9d4d039, 0xe6db99e5, 0x1fa27cf8, 0xc4ac5665,
   0xf4292244, 0x432aff97, 0xab9423a7, 0xfc93a039,
   0x655b59c3, 0x8f0ccc92, 0xffeff47d, 0x85845dd1,
   0x6fa87e4f, 0xfe2ce6e0, 0xa3014314, 0x4e0811a1,
   0xf7537e82, 0xbd3af235, 0x2ad7d2bb, 0xeb86d391]

def md5S : List Nat :=
  [7, 12, 17, 22, 7, 12, 17, 22, 7, 12, 17, 22, 7, 12, 17, 22,
   5, 9, 14, 20, 5, 9, 14, 20, 5, 9, 14, 20, 5, 9, 14, 20,
   4, 11, 16, 23, 4, 11, 16, 23, 4, 11, 16, 23, 4, 11, 16, 23,
   6, 10, 15, 21, 6, 10, 15, 21, 6, 10, 15, 21, 6, 10, 15, 21]

structure MD5State where
  a : Nat
  b : Nat
  c : Nat
  d : Nat
deriving DecidableEq

-- Little-endian decomposition of x into n bytes.
def leBytes : Nat → Nat → List Nat
  | 0, _ => []
  | n + 1, x => (x % 256) :: leBytes n (x / 256)

-- Word j of a 64-byte chunk, little-endian.
def wordLE (chunk : List Nat) (j : Nat) : Nat :=
  chunk.getD (4 * j) 0 + 256 * chunk.getD (4 * j + 1) 0 +
    65536 * chunk.getD (4 * j + 2) 0 + 16777216 * chunk.getD (4 * j + 3) 0

def md5Round (M : Nat → Nat) (st : MD5State) (i : Nat) : MD5State :=
  let F :=
    if i < 16 then (st.b &&& st.c) ||| (mnot st.b &&& st.d)
    else if i < 32 then (st.d &&& st.b) ||| (mnot st.d &&& st.c)
    else if i < 48 then st.b ^^^ st.c ^^^ st.d
    else st.c ^^^ (st.b ||| mnot st.d)
  let g :=
    if i < 16 then i
    else if i < 32 then (5 * i + 1) % 16
    else if i < 48 then (3 * i + 5) % 16
    else (7 * i) % 16
  let Fv := (F + st.a + md5K.getD i 0 + M g) % M32
  ⟨st.d, (st.b + rotl32 Fv (md5S.getD i 0)) % M32, st.b, st.c⟩

def md5Chunk (st : MD5State) (chunk : List Nat) : MD5State :=
  let r := (List.range 64).foldl (md5Round (wordLE chunk)) st
  ⟨(st.a + r.a) % M32, (st.b + r.b) % M32, (st.c + r.c) % M32,
    (st.d + r.d) % M32⟩

def md5Pad (msg : List Nat) : List Nat :=
  let z := (119 - msg.length % 64) % 64
  msg ++ [128] ++ List.replicate z 0 ++ leBytes 8 ((8 * msg.length) % 2 ^ 64)

def chunks64 (l : List Nat) : List (List Nat) :=
  if h : l = [] then []
  else l.take 64 :: chunks64 (l.drop 64)
termination_by l.length
decreasing_by
  simp only [List.length_drop]
  have : 0 < l.length := List.length_pos.mpr h
  omega

def md5Init : MD5State := ⟨0x67452301, 0xefcdab89, 0x98badcfe, 0x10325476⟩

def md5Bytes (msg : List Nat) : List Nat :=
  let st := (chunks64 (md5Pad msg)).foldl md5Chunk md5Init
  leBytes 4 st.a ++ leBytes 4 st.b ++ leBytes 4 st.c ++ leBytes 4 st.d

def hexDigit (n : Nat) : Char :=
  if n < 10 then Char.ofNat (48 + n) else Char.ofNat (87 + n)

def hexOfBytes : List Nat → List Char
  | [] => []
  | b :: bs => hexDigit (b / 16) :: hexDigit (b % 16) :: hexOfBytes bs

-- The lowercase hexadecimal rendering the md5 crate produces for a digest.
def md5hex (msg : List Nat) : String := String.mk (hexOfBytes (md5Bytes msg))

def isHexChar (c : Char) : Bool := "0123456789abcdef".toList.contains c

/- ===== store_testcase (src/src/monitor.rs) ===== -/

/-
  The filesystem under the output directory, as a map from path to file
  content; to_file writes the raw bytes, silently overwriting.
-/
def FS : Type := String → Option (List Nat)

def fsEmpty : FS := fun _ => none

def fsWrite (fs : FS) (path : String) (bytes : List Nat) : FS :=
  fun p => if p = path then some bytes else fs p

def store_testcase (fs : FS) (input : List Nat) (output_dir : String)
    (name : Option String) : FS × String :=
  let filename :=
    match name with
    | some n => n
    | none => md5hex input
  (fsWrite fs (output_dir ++ "/" ++ filename) input, filename)

/- ===== fuzz_harness (src/src/harness.rs) ===== -/

/-
  The process-wide mutable flags read by fuzz_harness, plus MAX_RUNS.
  MAX_RUNS defaults to the maximum of u64; max_runs here is a Nat.
-/
structure HarnessCfg where
  use_random_input : Bool
  continue_on_errors : Bool
  save_errors : Bool
  max_runs : Nat
deriving DecidableEq

inductive HarnessEvent where
  | simRun (bytes : List Nat)
  | coverDisplay
  | printLine (msg : String)
  | displayUncovered
  | persist (bytes : List Nat) (path : String)
  | terminate (msg : String)
deriving DecidableEq

/-
  The observable outcome of one fuzz_harness invocation: the ordered
  side effects, whether the invocation aborts the process (the two
  fatal branches unwind out of the harness and the in-process executor
  turns that into process termination), the value of NUM_RUNS after the
  invocation, and the filesystem after the invocation.
-/
structure HarnessOutcome where
  events : List HarnessEvent
  terminated : Bool
  new_num_runs : Nat
  new_fs : FS

def bugMsg : String := "<<<<<< Bug triggered >>>>>>"

def exitMsg : String := "Exit due to max_runs == 0"

def errorsDir : String := "errors"

-- The 1024 fresh random bytes drawn when USE_RANDOM_INPUT is set; the
-- random stream is an oracle parameter rng.
def randomBytes1024 (rng : Nat → Nat) : List Nat :=
  (List.range 1024).map (fun i => rng i % 256)

def effectiveInput (cfg : HarnessCfg) (input : List Nat)
    (rng : Nat → Nat) : List Nat :=
  if cfg.use_random_input then randomBytes1024 rng else input

/-
  fuzz_harness, with sim the oracle for sim_run_from_memory composed
  with the simulator (effective bytes to exit status).  The event list
  records the side effects in program order: the simulator run, the
  coverage display, then either the crash abort (uncovered-points
  diagnostic and abort), or the optional save of the ENGINE input, the
  NUM_RUNS increment, and the optional budget-exhaustion abort.
-/
def fuzz_harness (cfg : HarnessCfg) (num_runs : Nat) (fs : FS)
    (input : List Nat) (rng : Nat → Nat) (sim : List Nat → Int) :
    HarnessOutcome :=
  let effective := effectiveInput cfg input rng
  let ret := sim effective
  let ev0 := [HarnessEvent.simRun effective, HarnessEvent.coverDisplay]
  if cfg.continue_on_errors = false ∧ ret ≠ 0 then
    ⟨ev0 ++ [HarnessEvent.displayUncovered, HarnessEvent.terminate bugMsg],
      true, num_runs, fs⟩
  else
    let saveStep : FS × List HarnessEvent :=
      if cfg.save_errors = true ∧ ret ≠ 0 then
        let res := store_testcase fs input errorsDir none
        (res.1, [HarnessEvent.persist input (errorsDir ++ "/" ++ res.2)])
      else (fs, [])
    let num2 := num_runs + 1
    if cfg.max_runs ≤ num2 then
      ⟨ev0 ++ saveStep.2 ++ [HarnessEvent.printLine exitMsg,
          HarnessEvent.displayUncovered, HarnessEvent.terminate exitMsg],
        true, num2, saveStep.1⟩
    else
      ⟨ev0 ++ saveStep.2, false, num2, saveStep.1⟩

/- ===== The process-level run loop driven by the fuzzing engine ===== -/

structure ProcState where
  num_runs : Nat
  fs : FS
  terminated : Bool
  sim_calls : Nat

/-
  One engine-driven harness invocation at the process level: once an
  invocation has aborted the process, nothing further happens.  Every
  fuzz_harness invocation performs exactly one simulator execution
  (sim_run_from_memory is called once on every path), counted in
  sim_calls.
-/
def procStep (cfg : HarnessCfg) (sim : List Nat → Int) (rng : Nat → Nat)
    (input : List Nat) (s : ProcState) : ProcState :=
  if s.terminated then s
  else
    let o := fuzz_harness cfg s.num_runs s.fs input rng sim
    ⟨o.new_num_runs, o.new_fs, o.terminated, s.sim_calls + 1⟩

-- k engine-driven invocations from the fresh process state
-- (NUM_RUNS = 0, empty errors directory).
def procIter (cfg : HarnessCfg) (sim : List Nat → Int) (rng : Nat → Nat)
    (inputs : Nat → List Nat) : Nat → ProcState
  | 0 => ⟨0, fsEmpty, false, 0⟩
  | k + 1 => procStep cfg sim rng (inputs k) (procIter cfg sim rng inputs k)

/- ===== main, direct (non-fuzzing) portion (src/src/lib.rs) ===== -/

def main_direct_go {α : Type} (run : α → Int) (workloads : List α)
    (autoExit : Bool) : Nat → Int → Int
  | 0, hasFailed => hasFailed
  | n + 1, hasFailed =>
      let ret := (sim_run_multiple run workloads autoExit).ret
      if ret ≠ 0 then
        if autoExit then ret
        else main_direct_go run workloads autoExit n 1
      else main_direct_go run workloads autoExit n hasFailed

/-
  The exit code of main in direct mode (fuzzing = false): has_failed
  starts at 0; each of the repeat iterations runs sim_run_multiple and,
  on a nonzero result, sets has_failed to 1 and, under auto_exit,
  returns that result immediately.
-/
def main_direct {α : Type} (run : α → Int) (workloads : List α)
    (repeatN : Nat) (autoExit : Bool) : Int :=
  if 0 < workloads.length then main_direct_go run workloads autoExit repeatN 0
  else 0

/- Concrete instances used in the claim checks -/

def rngZero : Nat → Nat := fun _ => 0

def simOne : List Nat → Int := fun _ => 1

def simZero : List Nat → Int := fun _ => 0

def inputsEmpty : Nat → List Nat := fun _ => []

-- continue_on_errors off, save_errors on, budget effectively unbounded.
def cfgCrashSave : HarnessCfg := ⟨false, false, true, 1000000⟩

-- random-input mode with continue_on_errors and save_errors on.
def cfgRandomSave : HarnessCfg := ⟨true, true, true, 1000000⟩

-- plain fuzzing configuration with max_runs = 3.
def cfgBudget3 : HarnessCfg := ⟨false, false, false, 3⟩

-- workload oracle where the first workload fails and the rest pass.
def runFirstFails : Nat → Int := fun n => if n = 0 then 1 else 0

/- ===================== Lemmas ===================== -/

/- Lemmas about accumulate -/

theorem accumApply_cons (c0 a : Nat) (cp acc : List Nat) :
    accumApply (c0 :: cp) (a :: acc) = accumUpdate c0 a :: accumApply cp acc := by
  simp [accumApply]

theorem accumApply_nil_left (acc : List Nat) : accumApply [] acc = acc := by
  simp [accumApply]

theorem accumApply_nil_right (cp : List Nat) : accumApply cp [] = [] := by
  simp [accumApply]

theorem accumApply_getD : ∀ (cp acc : List Nat) (i : Nat),
    (accumApply cp acc).getD i 0 =
      if i < acc.length then accumUpdate (cp.getD i 0) (acc.getD i 0) else 0
  | cp, [], i => by simp [accumApply_nil_right]
  | [], a :: acc, i => by
      cases i with
      | zero => simp [accumApply_nil_left, accumUpdate]
      | succ n =>
          rw [accumApply_nil_left] at *
          have ih := accumApply_getD [] acc n
          rw [accumApply_nil_left] at ih
          simpa [accumUpdate] using ih
  | c0 :: cp, a :: acc, i => by
      cases i with
      | zero => simp [accumApply_cons]
      | succ n =>
          rw [accumApply_cons, List.getD_cons_succ, accumApply_getD cp acc n]
          simp
termination_by cp acc _ => cp.length + acc.length
decreasing_by all_goals simp <;> omega

theorem accumUpdate_idem (cp a : Nat) :
    accumUpdate cp (accumUpdate cp a) = accumUpdate cp a := by
  by_cases h : cp ≠ 0 <;> simp [accumUpdate, h]

theorem accumApply_idem : ∀ (cp acc : List Nat),
    accumApply cp (accumApply cp acc) = accumApply cp acc
  | [], acc => by simp [accumApply_nil_left]
  | c0 :: cp, [] => by simp [accumApply_nil_right]
  | c0 :: cp, a :: acc => by
      rw [accumApply_cons, accumApply_cons, accumUpdate_idem,
        accumApply_idem cp acc]

theorem accumApply_length (cp acc : List Nat) :
    (accumApply cp acc).length = acc.length := by
  simp [accumApply]
  omega

theorem accumApply_mono (cp acc : List Nat) (i : Nat)
    (h : acc.getD i 0 ≠ 0) : (accumApply cp acc).getD i 0 ≠ 0 := by
  rw [accumApply_getD]
  by_cases hi : i < acc.length
  · simp only [hi, if_true]
    unfold accumUpdate
    split
    · exact one_ne_zero
    · exact h
  · exact absurd (List.getD_eq_default _ _ (Nat.le_of_not_lt hi)) h

/- Lemmas about sim_run_multiple -/
theorem lastStatusD_getLast {α : Type} (run : α → Int) :
    ∀ (ws : List α) (d : Int) (w : α), ws.getLast? = some w →
      lastStatusD run ws d = run w
  | [], _, _ => by simp
  | x :: ws, d, w => by
      intro h
      cases ws with
      | nil =>
          rw [List.getLast?_singleton] at h
          cases h
          simp [lastStatusD]
      | cons y ys =>
          rw [List.getLast?_cons_cons] at h
          simpa [lastStatusD] using
            lastStatusD_getLast run (y :: ys) (run x) w h

theorem sim_go_false {α : Type} (run : α → Int) :
    ∀ (ws : List α) (r0 : Int),
    (sim_run_multiple_go run false ws r0).executed = ws ∧
    (sim_run_multiple_go run false ws r0).ret = lastStatusD run ws r0 ∧
    (sim_run_multiple_go run false ws r0).logged =
      (ws.filter (fun w => run w != 0)).map (fun w => (w, run w))
  | [], r0 => by simp [sim_run_multiple_go, lastStatusD]
  | w :: ws, r0 => by
      have ih := sim_go_false run ws (run w)
      by_cases h : run w = 0
      · rw [h] at ih
        simp [sim_run_multiple_go, h, lastStatusD, ih.1, ih.2.1, ih.2.2]
      · simp [sim_run_multiple_go, h, lastStatusD, ih.1, ih.2.1, ih.2.2]

theorem sim_go_true {α : Type} (run : α → Int) :
    ∀ (pre : List α) (w : α) (post : List α) (r0 : Int),
    (∀ x ∈ pre, run x = 0) → run w ≠ 0 →
    sim_run_multiple_go run true (pre ++ w :: post) r0 =
      ⟨run w, pre ++ [w], [(w, run w)]⟩
  | [], w, post, r0 => by
      intro _ hw
      simp [sim_run_multiple_go, hw]
  | x :: pre, w, post, r0 => by
      intro hpre hw
      have hx : run x = 0 := hpre x (List.mem_cons_self x pre)
      have ih := sim_go_true run pre w post (run x)
        (fun y hy => hpre y (List.mem_cons_of_mem x hy)) hw
      rw [hx] at ih
      simp [sim_run_multiple_go, hx, ih]

/- Lemmas about the digest and hex rendering -/

theorem leBytes_length : ∀ (n x : Nat), (leBytes n x).length = n
  | 0, _ => rfl
  | n + 1, x => by simp [leBytes, leBytes_length n (x / 256)]

theorem leBytes_lt : ∀ (n x : Nat), ∀ b ∈ leBytes n x, b < 256
  | 0, _ => by simp [leBytes]
  | n + 1, x => by
      intro b hb
      rw [leBytes] at hb
      rcases List.mem_cons.mp hb with h | h
      · subst h
        exact Nat.mod_lt _ (by norm_num)
      · exact leBytes_lt n (x / 256) b h

theorem md5Bytes_length (msg : List Nat) : (md5Bytes msg).length = 16 := by
  simp [md5Bytes, leBytes_length]

theorem md5Bytes_lt (msg : List Nat) : ∀ b ∈ md5Bytes msg, b < 256 := by
  intro b hb
  simp only [md5Bytes, List.mem_append] at hb
  rcases hb with ((h | h) | h) | h <;> exact leBytes_lt 4 _ b h

theorem hexDigit_mem (n : Nat) (h : n < 16) : isHexChar (hexDigit n) = true := by
  interval_cases n <;> decide

theorem hexOfBytes_length : ∀ (l : List Nat),
    (hexOfBytes l).length = 2 * l.length
  | [] => rfl
  | b :: bs => by
      simp [hexOfBytes, hexOfBytes_length bs]
      omega

theorem hexOfBytes_hex : ∀ (l : List Nat), (∀ b ∈ l, b < 256) →
    (hexOfBytes l).all isHexChar = true
  | [] => by
      intro _
      rfl
  | b :: bs => by
      intro h
      have hb := h b (List.mem_cons_self b bs)
      simp only [hexOfBytes, List.all_cons, Bool.and_eq_true]
      refine ⟨hexDigit_mem _ (by omega), hexDigit_mem _ (by omega),
        hexOfBytes_hex bs (fun x hx => h x (List.mem_cons_of_mem b hx))⟩

theorem md5hex_length (msg : List Nat) : (md5hex msg).length = 32 := by
  show (hexOfBytes (md5Bytes msg)).length = 32
  rw [hexOfBytes_length, md5Bytes_length]

theorem md5hex_hex (msg : List Nat) :
    (md5hex msg).data.all isHexChar = true :=
  hexOfBytes_hex (md5Bytes msg) (md5Bytes_lt msg)

/- Lemmas about fuzz_harness and main -/

theorem fuzz_harness_ok (cfg : HarnessCfg) (num_runs : Nat) (fs : FS)
    (input : List Nat) (rng : Nat → Nat) (sim : List Nat → Int)
    (h0 : sim (effectiveInput cfg input rng) = 0) :
    (fuzz_harness cfg num_runs fs input rng sim).new_num_runs = num_runs + 1 ∧
    (fuzz_harness cfg num_runs fs input rng sim).terminated =
      decide (cfg.max_runs ≤ num_runs + 1) ∧
    (fuzz_harness cfg num_runs fs input rng sim).new_fs = fs := by
  by_cases hm : cfg.max_runs ≤ num_runs + 1 <;>
    simp [fuzz_harness, h0, hm]

theorem main_go_zero {α : Type} (run : α → Int) (ws : List α) (ae : Bool)
    (h : (sim_run_multiple run ws ae).ret = 0) :
    ∀ (n : Nat) (hf : Int), main_direct_go run ws ae n hf = hf
  | 0, _ => rfl
  | n + 1, hf => by
      simp [main_direct_go, h, main_go_zero run ws ae h n hf]

theorem main_go_one {α : Type} (run : α → Int) (ws : List α)
    (h : (sim_run_multiple run ws false).ret ≠ 0) :
    ∀ n : Nat, main_direct_go run ws false n 1 = 1
  | 0 => rfl
  | n + 1 => by
      simp [main_direct_go, h, main_go_one run ws h n]

theorem main_go_nonzero {α : Type} (run : α → Int) (ws : List α) (ae : Bool)
    (h : (sim_run_multiple run ws ae).ret ≠ 0) :
    ∀ n : Nat, 0 < n → main_direct_go run ws ae n 0 ≠ 0 := by
  intro n hn
  cases n with
  | zero => omega
  | succ m =>
      cases ae with
      | true => simpa [main_direct_go, h] using h
      | false =>
          have hgo : main_direct_go run ws false (m + 1) 0 =
              main_direct_go run ws false m 1 := by
            simp [main_direct_go, h]
          rw [hgo]
          cases m with
          | zero => norm_num [main_direct_go]
          | succ p =>
              rw [main_go_one run ws h (p + 1)]
              norm_num

/- ===================== Claim theorems ===================== -/

/-- C9: store_testcase names the written file by the explicit name when
one is given, and otherwise by the 32-character lowercase hexadecimal
MD5 digest of the byte content; it writes exactly the input bytes to
directory/filename, so reading the file back returns the bytes, the
digest filename depends only on the content, and persisting identical
bytes twice with no explicit name overwrites the same single file. -/
theorem claim_C9_persist :
    (∀ (fs : FS) (input : List Nat) (dir n : String),
      (store_testcase fs input dir (some n)).2 = n) ∧
    (∀ (fs : FS) (input : List Nat) (dir : String),
      (store_testcase fs input dir none).2 = md5hex input) ∧
    (∀ input : List Nat, (md5hex input).length = 32 ∧
      (md5hex input).data.all isHexChar = true) ∧
    (∀ (fs : FS) (input : List Nat) (dir : String),
      (store_testcase fs input dir none).1
        (dir ++ "/" ++ md5hex input) = some input) ∧
    (∀ (fs : FS) (input : List Nat) (dir : String),
      (store_testcase (store_testcase fs input dir none).1 input dir none).1 =
        (store_testcase fs input dir none).1) := by
  refine ⟨fun _ _ _ _ => rfl, fun _ _ _ => rfl,
    fun input => ⟨md5hex_length input, md5hex_hex input⟩, ?_, ?_⟩
  · intro fs input dir
    simp [store_testcase, fsWrite]
  · intro fs input dir
    funext p
    by_cases hp : p = dir ++ "/" ++ md5hex input <;>
      simp [store_testcase, fsWrite, hp]

/-- C9 witness: persisting a concrete two-byte input into the errors
directory and reading it back through the written path returns exactly
those bytes, and the digest filename has 32 characters. -/
theorem claim_C9_persist_witness :
    (store_testcase fsEmpty [1, 2] errorsDir none).1
      (errorsDir ++ "/" ++ md5hex [1, 2]) = some [1, 2] ∧
    (md5hex [1, 2]).length = 32 :=
  ⟨claim_C9_persist.2.2.2.1 fsEmpty [1, 2] errorsDir,
   (claim_C9_persist.2.2.1 [1, 2]).1⟩

/-- C5: sim_run_multiple runs the workloads in order; with auto_exit it
stops right after the first nonzero status, does not run any later
workload, and returns that failing status; without auto_exit it runs
every workload exactly once, logs each nonzero status as it occurs, and
returns the status of the last run attempted, even when that is 0 and
an earlier run failed. -/
theorem claim_C5_run_many {α : Type} (run : α → Int) (ws : List α) :
    ((sim_run_multiple run ws false).executed = ws ∧
     (sim_run_multiple run ws false).ret = lastStatusD run ws 0 ∧
     (∀ w, ws.getLast? = some w →
        (sim_run_multiple run ws false).ret = run w) ∧
     (sim_run_multiple run ws false).logged =
       (ws.filter (fun w => run w != 0)).map (fun w => (w, run w))) ∧
    (∀ (pre : List α) (w : α) (post : List α), ws = pre ++ w :: post →
      (∀ x ∈ pre, run x = 0) → run w ≠ 0 →
      (sim_run_multiple run ws true).executed = pre ++ [w] ∧
      (sim_run_multiple run ws true).ret = run w ∧
      (sim_run_multiple run ws true).logged = [(w, run w)]) := by
  have hf := sim_go_false run ws 0
  refine ⟨⟨hf.1, hf.2.1, ?_, hf.2.2⟩, ?_⟩
  · intro w hw
    exact hf.2.1.trans (lastStatusD_getLast run ws 0 w hw)
  · intro pre w post hws hpre hw
    subst hws
    have ht := sim_go_true run pre w post 0 hpre hw
    rw [sim_run_multiple, ht]
    exact ⟨rfl, rfl, rfl⟩

/-- C5 witness: a concrete three-workload list in which the middle
workload fails with status 2; with auto_exit the third workload is not
executed and the returned status is 2; without auto_exit all three run
and the returned status is that of the last one, 0, while the failure
of the middle one was logged. -/
theorem claim_C5_run_many_witness :
    (sim_run_multiple (fun n : Nat => if n = 1 then (2 : Int) else 0)
        [0, 1, 2] true).executed = [0, 1] ∧
    (sim_run_multiple (fun n : Nat => if n = 1 then (2 : Int) else 0)
        [0, 1, 2] true).ret = 2 ∧
    (sim_run_multiple (fun n : Nat => if n = 1 then (2 : Int) else 0)
        [0, 1, 2] false).executed = [0, 1, 2] ∧
    (sim_run_multiple (fun n : Nat => if n = 1 then (2 : Int) else 0)
        [0, 1, 2] false).ret = 0 ∧
    (sim_run_multiple (fun n : Nat => if n = 1 then (2 : Int) else 0)
        [0, 1, 2] false).logged = [(1, 2)] := by
  have h := claim_C5_run_many (fun n : Nat => if n = 1 then (2 : Int) else 0)
    [0, 1, 2]
  have ht := h.2 [0] 1 [2] (by decide) (by decide) (by decide)
  refine ⟨ht.1, ht.2.1.trans (by decide), h.1.1, ?_, ?_⟩
  · rw [h.1.2.1]
    decide
  · rw [h.1.2.2.2]
    decide

/-- C7: after accumulate(), accumulated holds 1 at every position where
cover_points is nonzero and is unchanged at every other position (the
length also never changes); accumulate is idempotent when cover_points
is unchanged, so a second call changes neither accumulated nor the
accumulated coverage percentage. -/
theorem claim_C7_merge (c : Coverage)
    (h : c.cover_points.length = c.accumulated.length) :
    c.accumulate.accumulated.length = c.accumulated.length ∧
    (∀ i, i < c.accumulated.length →
      c.accumulate.accumulated.getD i 0 =
        if c.cover_points.getD i 0 ≠ 0 then 1
        else c.accumulated.getD i 0) ∧
    c.accumulate.accumulate = c.accumulate ∧
    c.accumulate.accumulate.get_accumulative_coverage =
      c.accumulate.get_accumulative_coverage := by
  refine ⟨?_, ?_, ?_, ?_⟩
  · exact accumApply_length _ _
  · intro i hi
    show (accumApply c.cover_points c.accumulated).getD i 0 = _
    rw [accumApply_getD]
    simp [hi, accumUpdate]
  · show Coverage.mk c.cover_points
        (accumApply c.cover_points (accumApply c.cover_points c.accumulated)) =
      Coverage.mk c.cover_points (accumApply c.cover_points c.accumulated)
    rw [accumApply_idem]
  · show (Coverage.mk c.cover_points
        (accumApply c.cover_points
          (accumApply c.cover_points c.accumulated))).get_accumulative_coverage =
      _
    rw [accumApply_idem]
    rfl

/-- C7 witness: a concrete two-point coverage map with one nonzero raw
counter; accumulate sets exactly that accumulated slot to 1 and a
second accumulate is a no-op. -/
theorem claim_C7_merge_witness :
    (Coverage.mk [5, 0] [0, 0]).accumulate.accumulated.getD 0 0 = 1 ∧
    (Coverage.mk [5, 0] [0, 0]).accumulate.accumulated.getD 1 0 = 0 ∧
    (Coverage.mk [5, 0] [0, 0]).accumulate.accumulate =
      (Coverage.mk [5, 0] [0, 0]).accumulate := by
  have h := claim_C7_merge (Coverage.mk [5, 0] [0, 0]) (by decide)
  refine ⟨?_, ?_, h.2.2.1⟩
  · rw [h.2.1 0 (by decide)]
    decide
  · rw [h.2.1 1 (by decide)]
    decide

/-- C8: accumulated is monotonic across the whole process: along any
sequence of CoverageMap operations (foreign counter writes and
accumulate calls), once accumulated holds a nonzero value at a
position, it stays nonzero. -/
theorem claim_C8_monotonic (a b : Coverage) (i : Nat)
    (hreach : CovReach a b) (h : a.accumulated.getD i 0 ≠ 0) :
    b.accumulated.getD i 0 ≠ 0 := by
  have hr : Relation.ReflTransGen CovStep a b := hreach
  clear hreach
  induction hr with
  | refl => exact h
  | tail _ hstep ih =>
      cases hstep with
      | sim_write new_cp hlen => exact ih
      | accumulate => exact accumApply_mono _ _ _ ih

/-- C8 witness: a covered position survives one accumulate step. -/
theorem claim_C8_monotonic_witness :
    (Coverage.mk [0] [1]).accumulate.accumulated.getD 0 0 ≠ 0 :=
  claim_C8_monotonic (Coverage.mk [0] [1]) (Coverage.mk [0] [1]).accumulate 0
    (Relation.ReflTransGen.single (CovStep.accumulate (Coverage.mk [0] [1])))
    (by decide)

/-- C10: on the empty workload list, sim_run_multiple executes no
simulator invocation and returns status 0, for either value of the
auto_exit flag. -/
theorem claim_C10_empty {α : Type} (run : α → Int) (autoExit : Bool) :
    (sim_run_multiple run [] autoExit).executed = [] ∧
    (sim_run_multiple run [] autoExit).ret = 0 :=
  ⟨rfl, rfl⟩

/-- C10 witness: the empty list with a failing oracle and auto_exit on
still yields no executions and status 0. -/
theorem claim_C10_empty_witness :
    (sim_run_multiple (fun _ : Nat => (5 : Int)) [] true).executed = [] ∧
    (sim_run_multiple (fun _ : Nat => (5 : Int)) [] true).ret = 0 :=
  claim_C10_empty (fun _ => 5) true

/-- C1 counterexample: with continue_on_errors off, save_errors ON and
a failing run, the invocation aborts right after the uncovered-points
diagnostic and the triggering bytes are NOT persisted: the event list
contains no persist event and the errors directory stays empty. -/
theorem claim_C1_counterexample :
    (fuzz_harness cfgCrashSave 0 fsEmpty [7] rngZero simOne).events =
      [HarnessEvent.simRun [7], HarnessEvent.coverDisplay,
       HarnessEvent.displayUncovered, HarnessEvent.terminate bugMsg] ∧
    cfgCrashSave.save_errors = true ∧
    (fuzz_harness cfgCrashSave 0 fsEmpty [7] rngZero simOne).new_fs
      (errorsDir ++ "/" ++ md5hex [7]) = none :=
  ⟨rfl, rfl, rfl⟩

/-- C1 (amended): when a run returns nonzero status and
continue_on_errors is off, the invocation aborts the process right
there, with side-effect order run, coverage display, uncovered-points
diagnostic, termination; no persistence happens on this path, even when
save_errors is set, and the filesystem is unchanged. -/
theorem claim_C1_crash_abort (cfg : HarnessCfg) (num_runs : Nat) (fs : FS)
    (input : List Nat) (rng : Nat → Nat) (sim : List Nat → Int)
    (hc : cfg.continue_on_errors = false)
    (hr : sim (effectiveInput cfg input rng) ≠ 0) :
    (fuzz_harness cfg num_runs fs input rng sim).terminated = true ∧
    (fuzz_harness cfg num_runs fs input rng sim).events =
      [HarnessEvent.simRun (effectiveInput cfg input rng),
       HarnessEvent.coverDisplay, HarnessEvent.displayUncovered,
       HarnessEvent.terminate bugMsg] ∧
    (fuzz_harness cfg num_runs fs input rng sim).new_fs = fs := by
  simp [fuzz_harness, hc, hr]

/-- C1 witness: the amended statement at the concrete counterexample
configuration. -/
theorem claim_C1_crash_abort_witness :
    (fuzz_harness cfgCrashSave 0 fsEmpty [7] rngZero simOne).terminated =
        true ∧
    (fuzz_harness cfgCrashSave 0 fsEmpty [7] rngZero simOne).new_fs =
        fsEmpty := by
  have h := claim_C1_crash_abort cfgCrashSave 0 fsEmpty [7] rngZero simOne
    rfl (by decide)
  exact ⟨h.1, h.2.2⟩

/-- C2 counterexample: an invocation that takes the crash abort
(nonzero status, continue_on_errors off) terminates the process with
NUM_RUNS unchanged, so NUM_RUNS is not incremented on that invocation. -/
theorem claim_C2_counterexample :
    (fuzz_harness cfgCrashSave 5 fsEmpty [7] rngZero simOne).terminated =
        true ∧
    (fuzz_harness cfgCrashSave 5 fsEmpty [7] rngZero simOne).new_num_runs =
        5 :=
  ⟨rfl, rfl⟩

/-- C2 (amended): NUM_RUNS is incremented exactly once on every
invocation that does not take the crash abort — including the
budget-exhaustion invocation, whose increment precedes the abort — but
a crash-aborting invocation (nonzero status with continue_on_errors
off) terminates the process before the increment, leaving NUM_RUNS
unchanged. -/
theorem claim_C2_num_runs (cfg : HarnessCfg) (num_runs : Nat) (fs : FS)
    (input : List Nat) (rng : Nat → Nat) (sim : List Nat → Int) :
    ((cfg.continue_on_errors = true ∨
        sim (effectiveInput cfg input rng) = 0) →
      (fuzz_harness cfg num_runs fs input rng sim).new_num_runs =
        num_runs + 1) ∧
    ((cfg.continue_on_errors = false ∧
        sim (effectiveInput cfg input rng) ≠ 0) →
      (fuzz_harness cfg num_runs fs input rng sim).new_num_runs =
        num_runs) := by
  constructor
  · intro h
    have hcond : ¬(cfg.continue_on_errors = false ∧
        sim (effectiveInput cfg input rng) ≠ 0) := by
      rcases h with h | h <;> simp [h]
    by_cases hm : cfg.max_runs ≤ num_runs + 1 <;>
      simp [fuzz_harness, hcond, hm]
  · intro h
    simp [fuzz_harness, h.1, h.2]

/-- C2 witness: a non-aborting invocation increments NUM_RUNS by one,
and the concrete crash-aborting invocation leaves it at 5. -/
theorem claim_C2_num_runs_witness :
    (fuzz_harness cfgRandomSave 0 fsEmpty [7] rngZero simOne).new_num_runs =
        0 + 1 ∧
    (fuzz_harness cfgCrashSave 5 fsEmpty [7] rngZero simOne).new_num_runs =
        5 :=
  ⟨(claim_C2_num_runs cfgRandomSave 0 fsEmpty [7] rngZero simOne).1
      (Or.inl rfl),
   (claim_C2_num_runs cfgCrashSave 5 fsEmpty [7] rngZero simOne).2
      ⟨rfl, by decide⟩⟩

/-- C3 counterexample: in random-input mode with save_errors on and a
failing run, the run executes the fresh 1024-byte random buffer but the
bytes persisted under errors are the engine-supplied input, which is
not the random buffer. -/
theorem claim_C3_counterexample :
    (fuzz_harness cfgRandomSave 0 fsEmpty [1, 2, 3] rngZero simOne).events =
      [HarnessEvent.simRun (randomBytes1024 rngZero),
       HarnessEvent.coverDisplay,
       HarnessEvent.persist [1, 2, 3]
         (errorsDir ++ "/" ++ md5hex [1, 2, 3])] ∧
    [1, 2, 3] ≠ randomBytes1024 rngZero := by
  constructor
  · rfl
  · intro hcontra
    have hl := congrArg List.length hcontra
    rw [randomBytes1024, List.length_map, List.length_range] at hl
    simp at hl

/-- C3 (amended): when a run returns nonzero status, save_errors is on
and continue_on_errors is on (so the crash abort is not taken), the
bytes persisted under the errors directory are the engine-supplied
input bytes verbatim — in both input modes; in random-input mode the
random buffer that actually ran is not what is persisted. -/
theorem claim_C3_save (cfg : HarnessCfg) (num_runs : Nat) (fs : FS)
    (input : List Nat) (rng : Nat → Nat) (sim : List Nat → Int)
    (hc : cfg.continue_on_errors = true)
    (hs : cfg.save_errors = true)
    (hr : sim (effectiveInput cfg input rng) ≠ 0) :
    (fuzz_harness cfg num_runs fs input rng sim).new_fs
      (errorsDir ++ "/" ++ md5hex input) = some input ∧
    HarnessEvent.persist input (errorsDir ++ "/" ++ md5hex input) ∈
      (fuzz_harness cfg num_runs fs input rng sim).events := by
  by_cases hm : cfg.max_runs ≤ num_runs + 1 <;>
    simp [fuzz_harness, hc, hs, hr, hm, store_testcase, fsWrite]

/-- C3 witness: the amended statement at the concrete random-input
configuration: the engine bytes land in the errors directory. -/
theorem claim_C3_save_witness :
    (fuzz_harness cfgRandomSave 0 fsEmpty [1, 2, 3] rngZero simOne).new_fs
      (errorsDir ++ "/" ++ md5hex [1, 2, 3]) = some [1, 2, 3] :=
  (claim_C3_save cfgRandomSave 0 fsEmpty [1, 2, 3] rngZero simOne
    rfl rfl (by decide)).1

/-- C4 counterexample: two workloads, the first failing with status 1
and the second passing, repeat 1, auto_exit off: the failing workload
is executed and logged, yet the process exit code is 0. -/
theorem claim_C4_counterexample :
    main_direct runFirstFails [0, 1] 1 false = 0 ∧
    runFirstFails 0 = 1 ∧
    (0 : Nat) ∈ (sim_run_multiple runFirstFails [0, 1] false).executed ∧
    (sim_run_multiple runFirstFails [0, 1] false).logged = [(0, 1)] := by
  decide

/-- C4 (amended): in direct mode with at least one workload and at
least one repeat, the process exit code is 0 if and only if
sim_run_multiple returns 0 — that is, with auto_exit off, if and only
if the LAST workload run of a repeat returns 0; a failure of an earlier
workload is logged but does not make the exit code nonzero. -/
theorem claim_C4_exit_code {α : Type} (run : α → Int) (ws : List α)
    (r : Nat) (ae : Bool) (hw : 0 < ws.length) (hr : 0 < r) :
    (main_direct run ws r ae = 0 ↔ (sim_run_multiple run ws ae).ret = 0) := by
  rw [main_direct, if_pos hw]
  constructor
  · intro h0
    by_contra hne
    exact main_go_nonzero run ws ae hne r hr h0
  · intro h0
    exact main_go_zero run ws ae h0 r 0

/-- C4 witness: the amended equivalence at the concrete counterexample
workload list. -/
theorem claim_C4_exit_code_witness :
    (main_direct runFirstFails [0, 1] 1 false = 0 ↔
      (sim_run_multiple runFirstFails [0, 1] false).ret = 0) :=
  claim_C4_exit_code runFirstFails [0, 1] 1 false (by decide) (by decide)

/-- C6 counterexample: with max_runs = 3 and all-zero statuses, it is
the THIRD harness invocation that terminates the process — after
executing the third simulator call (the events of that invocation show
the simulator run before the budget-exhaustion termination) — so no
fourth invocation ever begins. -/
theorem claim_C6_counterexample :
    (procIter cfgBudget3 simZero rngZero inputsEmpty 3).terminated = true ∧
    (procIter cfgBudget3 simZero rngZero inputsEmpty 2).terminated = false ∧
    (procIter cfgBudget3 simZero rngZero inputsEmpty 3).sim_calls = 3 ∧
    (fuzz_harness cfgBudget3 2 fsEmpty (inputsEmpty 2) rngZero simZero).events =
      [HarnessEvent.simRun [], HarnessEvent.coverDisplay,
       HarnessEvent.printLine exitMsg, HarnessEvent.displayUncovered,
       HarnessEvent.terminate exitMsg] := by
  decide

/-- C6 (amended): for max_runs = n with n at least 1 and all-zero
statuses, after k engine-driven invocations exactly min k n simulator
executions have occurred and NUM_RUNS equals min k n, and the process
is terminated exactly when k has reached n: the n-th invocation
terminates the process after its own simulator call, so no more than n
simulator executions ever occur. -/
theorem claim_C6_budget (cfg : HarnessCfg) (sim : List Nat → Int)
    (rng : Nat → Nat) (inputs : Nat → List Nat)
    (hsim : ∀ b, sim b = 0) (hmax : 1 ≤ cfg.max_runs) (k : Nat) :
    (procIter cfg sim rng inputs k).sim_calls = min k cfg.max_runs ∧
    (procIter cfg sim rng inputs k).num_runs = min k cfg.max_runs ∧
    ((procIter cfg sim rng inputs k).terminated = true ↔
      cfg.max_runs ≤ k) := by
  induction k with
  | zero =>
      refine ⟨by simp [procIter], by simp [procIter], ?_⟩
      show (false = true ↔ cfg.max_runs ≤ 0)
      constructor
      · intro hfalse
        cases hfalse
      · intro hle
        omega
  | succ k ih =>
      have hstep : procIter cfg sim rng inputs (k + 1) =
          procStep cfg sim rng (inputs k) (procIter cfg sim rng inputs k) :=
        rfl
      by_cases hterm : cfg.max_runs ≤ k
      · have ht : (procIter cfg sim rng inputs k).terminated = true :=
          ih.2.2.mpr hterm
        rw [hstep]
        simp only [procStep, ht, if_true]
        refine ⟨?_, ?_, ?_⟩
        · rw [ih.1]
          omega
        · rw [ih.2.1]
          omega
        · exact iff_of_true trivial (by omega)
      · have ht : ¬((procIter cfg sim rng inputs k).terminated = true) :=
          fun hh => hterm (ih.2.2.mp hh)
        have hok := fuzz_harness_ok cfg
          (procIter cfg sim rng inputs k).num_runs
          (procIter cfg sim rng inputs k).fs (inputs k) rng sim (hsim _)
        rw [hstep]
        simp only [procStep, ht, if_false, Bool.not_eq_true] at *
        rw [if_neg (by simp [ht])]
        refine ⟨?_, ?_, ?_⟩
        · show (procIter cfg sim rng inputs k).sim_calls + 1 =
            min (k + 1) cfg.max_runs
          rw [ih.1]
          omega
        · show (fuzz_harness cfg (procIter cfg sim rng inputs k).num_runs
              (procIter cfg sim rng inputs k).fs (inputs k) rng
              sim).new_num_runs = min (k + 1) cfg.max_runs
          rw [hok.1, ih.2.1]
          omega
        · show (fuzz_harness cfg (procIter cfg sim rng inputs k).num_runs
              (procIter cfg sim rng inputs k).fs (inputs k) rng
              sim).terminated = true ↔ cfg.max_runs ≤ k + 1
          rw [hok.2.1, ih.2.1]
          simp only [decide_eq_true_eq]
          omega

/-- C6 witness: the amended statement with max_runs = 3 after 5
attempted invocations: exactly 3 simulator executions happened and the
process is terminated. -/
theorem claim_C6_budget_witness :
    (procIter cfgBudget3 simZero rngZero inputsEmpty 5).sim_calls =
        min 5 cfgBudget3.max_runs ∧
    (procIter cfgBudget3 simZero rngZero inputsEmpty 5).num_runs =
        min 5 cfgBudget3.max_runs ∧
    ((procIter cfgBudget3 simZero rngZero inputsEmpty 5).terminated = true ↔
      cfgBudget3.max_runs ≤ 5) :=
  claim_C6_budget cfgBudget3 simZero rngZero inputsEmpty
    (fun _ => rfl) (by decide) 5

end XFuzz
